import Mathlib

/-!
Verification development for the connmon passive TCP connection monitor
(single source file connmon.cpp).

Shallow embedding notes.

Time: the program derives its capture clock from integer packet timestamps
(seconds, microseconds) and stores it in doubles measured in seconds; every
use of a time value in the program is an addition, a subtraction or an order
comparison.  The embedding therefore represents every time value as an exact
integer count of microseconds, a linear rescaling (by 1e6) of the sources
double-seconds under which all additions, subtractions and comparisons agree;
floating point rounding is the only discrepancy and is ignored.  Scaled
constants: rtdMaxAge 10 s = 10000000, flowMaxIdle 300 s = 300000000,
sumInt 10 s = 10000000, and the absent-key sentinel -1.0 s = -1000000.

Hash tables: the three global unordered string maps (flows, tsTbl, seqTbl)
are embedded as association lists with the map operations used by the source
(count/at/emplace/try_emplace/erase).  Keys are the very strings the source
builds by concatenation.

Packets: processPacket is modeled from the point where the TCP and IP
headers have been parsed (libtins is an external collaborator); a Pkt record
carries the fields the source reads from the parsed packet.  The branches
for non-TCP and non-IP packets are therefore not represented.
-/

namespace Connmon

/-- Association list lookup, the model of unordered_map count/at. -/
def findT {α : Type} : List (String × α) → String → Option α
  | [], _ => none
  | (k, v) :: r, key => if k = key then some v else findT r key

/-- Association list erase of the first binding of a key, the model of
unordered_map erase (maps built by the source never hold a key twice). -/
def eraseT {α : Type} : List (String × α) → String → List (String × α)
  | [], _ => []
  | (k, v) :: r, key => if k = key then r else (k, v) :: eraseT r key

/-- Replace the value bound to a key, the model of writing through the
pointer obtained from unordered_map at. -/
def replaceT {α : Type} : List (String × α) → String → α → List (String × α)
  | [], _, _ => []
  | (k, v) :: r, key, nv => if k = key then (key, nv) :: r else (k, v) :: replaceT r key nv

/-- The keys of an association list are pairwise distinct.  This is the
standing invariant of every unordered_map. -/
def keysNodup {α : Type} (tbl : List (String × α)) : Prop :=
  (tbl.map Prod.fst).Nodup

instance keysNodupDec {α : Type} (tbl : List (String × α)) :
    Decidable (keysNodup tbl) :=
  inferInstanceAs (Decidable (tbl.map Prod.fst).Nodup)

/-- addTS from connmon.cpp: save the capture time of a packet under its
flow + TSval key; if the key exists, do not change it (try_emplace). -/
def addTS (tbl : List (String × ℤ)) (key : String) (tm : ℤ) : List (String × ℤ) :=
  match findT tbl key with
  | some _ => tbl
  | none => (key, tm) :: tbl

/-- addSeq from connmon.cpp: identical first-writer-wins insert for the
sequence table. -/
def addSeq (tbl : List (String × ℤ)) (key : String) (tm : ℤ) : List (String × ℤ) :=
  match findT tbl key with
  | some _ => tbl
  | none => (key, tm) :: tbl

/-- getTStm from connmon.cpp: look the key up; if present remove the entry
and return its time, else return the sentinel -1.0 s (scaled: -1000000).
The function returns the updated table alongside. -/
def getTStm (tbl : List (String × ℤ)) (key : String) : ℤ × List (String × ℤ) :=
  match findT tbl key with
  | some ti => (ti, eraseT tbl key)
  | none => (-1000000, tbl)

/-- getSeqTm from connmon.cpp: same take operation on the sequence table. -/
def getSeqTm (tbl : List (String × ℤ)) (key : String) : ℤ × List (String × ℤ) :=
  match findT tbl key with
  | some ti => (ti, eraseT tbl key)
  | none => (-1000000, tbl)

/-- flowRec from connmon.cpp (times in microseconds, see the file header). -/
structure FlowRec where
  flowname : String
  lastTm : ℤ := 0
  bytesSnt : ℕ := 0
  lastSeq : ℕ := 0
  lastAck : ℕ := 0
  lastPay : ℕ := 0
  revFlow : Bool := false
deriving DecidableEq, Repr

/-- The parsed-packet record processPacket reads: capture timestamp
(seconds and microseconds), address strings, ports, the TCP flag byte,
sequence and acknowledgment numbers, payload length, on-wire length, and
the optional TCP timestamp option (TSval, ECR). -/
structure Pkt where
  tsSec : ℤ
  tsUsec : ℕ
  ipsstr : String
  ipdstr : String
  sport : ℕ
  dport : ℕ
  flags : ℕ
  seqno : ℕ
  ackno : ℕ
  payLen : ℕ
  pktLen : ℕ
  tsOpt : Option (ℕ × ℕ)
deriving DecidableEq, Repr

/-- The global mutable state of connmon that the classifier touches. -/
structure MonState where
  flows : List (String × FlowRec) := []
  tsTbl : List (String × ℤ) := []
  seqTbl : List (String × ℤ) := []
  offTm : ℤ := -1
  startm : ℤ := 0
  capTm : ℤ := 0
  flowCnt : ℕ := 0
  pktCnt : ℕ := 0
  uniDir : ℕ := 0
  noTS : ℕ := 0
deriving DecidableEq, Repr

/-- The configuration globals set by the command line. -/
structure Cfg where
  maxFlows : ℕ := 10000
  filtLocal : Bool := true
  localIP : String := ""
  quick : Bool := false
  rtdMaxAge : ℤ := 10000000
  flowMaxIdle : ℤ := 300000000
  sumInt : ℤ := 10000000
  timeToRun : ℤ := 0
  maxPackets : ℕ := 0
deriving DecidableEq, Repr

/-- The TCP flag bits used by the source (libtins values). -/
def finFlag : ℕ := 1

def synFlag : ℕ := 2

def ackFlag : ℕ := 16

/-- Test of one flag bit in the TCP flag byte. -/
def hasFlag (flags bit : ℕ) : Bool := flags.land bit != 0

/-- srcstr in processPacket: source address and port. -/
def srcOf (p : Pkt) : String := p.ipsstr ++ ":" ++ toString p.sport

/-- dststr in processPacket: destination address and port. -/
def dstOf (p : Pkt) : String := p.ipdstr ++ ":" ++ toString p.dport

/-- fstr in processPacket: the directional flow key. -/
def flowOf (p : Pkt) : String := srcOf p ++ "+" ++ dstOf p

/-- The reversed flow key dststr + srcstr. -/
def revOf (p : Pkt) : String := dstOf p ++ "+" ++ srcOf p

/-- rcv_tsval: the TSval of the timestamp option, 0 when the option is
absent (in that case the value is never used with no_pping false). -/
def tsvalOf (p : Pkt) : ℕ := (p.tsOpt.getD (0, 0)).1

/-- rcv_tsecr: the ECR of the timestamp option, 0 when absent. -/
def tsecrOf (p : Pkt) : ℕ := (p.tsOpt.getD (0, 0)).2

/-- Key used by the TSval insert: tsval + fstr. -/
def tsvalKey (p : Pkt) : String := toString (tsvalOf p) ++ "+" ++ flowOf p

/-- Key used by the TSval lookup: tsecr + reversed flow. -/
def ecrKey (p : Pkt) : String := toString (tsecrOf p) ++ "+" ++ revOf p

/-- Key used by the seqno insert: seqno + payLen (32 bit) + fstr. -/
def seqKey (p : Pkt) : String :=
  toString ((p.seqno + p.payLen) % 4294967296) ++ "+" ++ flowOf p

/-- Key used by the ackno lookup: ackno + reversed flow. -/
def ackKey (p : Pkt) : String := toString p.ackno ++ "+" ++ revOf p

/-- The no_pping flag of processPacket after lines 329 to 346: set when the
flow has no reverse, when the timestamp option is missing, when TSval is 0,
or when ECR is 0 on a non-SYN packet. -/
def computeNoPping (p : Pkt) (rev : Bool) : Bool :=
  (!rev || p.tsOpt.isNone) ||
    ((tsvalOf p == 0) || ((tsecrOf p == 0) && !(hasFlag p.flags synFlag)))

/-- The local-host filter test !filtLocal || localIP != ipdstr. -/
def notLocalB (cfg : Cfg) (p : Pkt) : Bool :=
  !cfg.filtLocal || (cfg.localIP != p.ipdstr)

/-- Two-complement reading of a 32 bit value, the implicit uint32-to-int
conversion the source performs when storing the sequence delta. -/
def toSigned32 (n : ℕ) : ℤ :=
  if n < 2147483648 then (n : ℤ) else (n : ℤ) - 4294967296

/-- Unsigned 32 bit subtraction followed by the signed reading, the model
of the expression seqno - (lastSeq + lastPay) of line 388. -/
def sub32 (a b : ℕ) : ℤ :=
  toSigned32 ((a % 4294967296 + 4294967296 - b % 4294967296) % 4294967296)

/-- The sequence delta dseq of lines 386 to 391: 0 while lastSeq is 0. -/
def dseqOfPkt (p : Pkt) (fr : FlowRec) : ℤ :=
  if fr.lastSeq ≠ 0 then sub32 p.seqno (fr.lastSeq + fr.lastPay) else 0

/-- The duplicate-ACK test of line 397: the flag byte is exactly ACK, the
payload is empty and the ackno repeats the previous one of the flow. -/
def isDupAck (p : Pkt) (fr : FlowRec) : Bool :=
  (p.flags == ackFlag) && (p.payLen == 0) && (p.ackno == fr.lastAck)

/-- The timestamp table after the conditional insert of lines 350 to 353:
when no_pping is clear and the local filter does not block, the TSval key
is inserted first-writer-wins. -/
def tsTblAfterIns (cfg : Cfg) (st : MonState) (p : Pkt) (rev : Bool) :
    List (String × ℤ) :=
  if computeNoPping p rev then st.tsTbl
  else if notLocalB cfg p then addTS st.tsTbl (tsvalKey p) st.capTm
  else st.tsTbl

/-- The timestamp lookup of line 354: when no_pping is clear, take the
reversed-flow ECR key from the (just updated) timestamp table.  When
no_pping is set nothing happens; the sentinel stands for the unread t. -/
def tsTakeRes (cfg : Cfg) (st : MonState) (p : Pkt) (rev : Bool) :
    ℤ × List (String × ℤ) :=
  if computeNoPping p rev then (-1000000, tsTblAfterIns cfg st p rev)
  else getTStm (tsTblAfterIns cfg st p rev) (ecrKey p)

/-- The sequence table after the conditional insert of lines 369 to 372
(this function is only consulted inside the local-filter branch). -/
def seqTblAfterIns (st : MonState) (p : Pkt) (fr : FlowRec) :
    List (String × ℤ) :=
  if fr.revFlow && decide (0 < p.payLen) then
    addSeq st.seqTbl (seqKey p) st.capTm
  else st.seqTbl

/-- The guard of the ackno lookup of line 373: reverse flow seen, a pure
ACK or a fresh ackno, and the ACK flag set. -/
def seqLookupGuard (p : Pkt) (fr : FlowRec) : Bool :=
  fr.revFlow && ((p.payLen == 0) || (p.ackno != fr.lastAck)) && hasFlag p.flags ackFlag

/-- The whole seqno RTD block of lines 368 to 381: produces the final
sequence table, the srtd value and the sd flag.  The block is skipped
entirely when the local filter blocks the destination. -/
def seqStage (cfg : Cfg) (st : MonState) (p : Pkt) (fr : FlowRec) :
    List (String × ℤ) × ℤ × Bool :=
  if notLocalB cfg p then
    let s1 := seqTblAfterIns st p fr
    if seqLookupGuard p fr then
      let r := getSeqTm s1 (ackKey p)
      (r.2, if 0 < r.1 then st.capTm - r.1 else 0, decide (0 < r.1))
    else (s1, 0, false)
  else (st.seqTbl, 0, false)

/-- The flow record after all per-packet field updates: bytesSnt grows by
the on-wire length (line 328), lastSeq advances by one extra on SYN or FIN
(line 393), and lastPay, lastTm, lastAck take the values of this packet
(lines 407 to 409). -/
def updatedRec (st : MonState) (p : Pkt) (fr : FlowRec) : FlowRec :=
  { flowname := fr.flowname
    bytesSnt := fr.bytesSnt + p.pktLen
    lastSeq := if hasFlag p.flags synFlag || hasFlag p.flags finFlag then
        (p.seqno + 1) % 4294967296
      else p.seqno
    lastPay := p.payLen
    lastTm := st.capTm
    lastAck := p.ackno
    revFlow := fr.revFlow }

/-- The per-packet observable quantities of processPacket: the four print
flags pd, sd, ds, dp and the values they guard, plus bookkeeping facts
(the reverse-flow bit and no_pping value the packet saw). -/
structure PktInfo where
  pd : Bool
  prtd : ℤ
  sd : Bool
  srtd : ℤ
  ds : Bool
  dseq : ℤ
  dp : Bool
  dupT : ℤ
  revFlow : Bool
  noPping : Bool
  payLen : ℕ
  bytesSnt : ℕ
  fstr : String
deriving DecidableEq, Repr

/-- Outcome of processPacket on a parsed TCP packet: either the packet was
dropped by the flow-table cap (line 310) or it was classified, yielding the
observable quantities and the decision whether a line is printed. -/
inductive ProcResult where
  | dropped : ProcResult
  | done : PktInfo → Bool → ProcResult
deriving DecidableEq, Repr

/-- The observable quantities of one classified packet, assembled from the
stage functions above. -/
def infoOf (cfg : Cfg) (st : MonState) (p : Pkt) (fr : FlowRec) : PktInfo :=
  { pd := decide (0 < (tsTakeRes cfg st p fr.revFlow).1)
    prtd := if 0 < (tsTakeRes cfg st p fr.revFlow).1 then
        st.capTm - (tsTakeRes cfg st p fr.revFlow).1
      else 0
    sd := (seqStage cfg st p fr).2.2
    srtd := (seqStage cfg st p fr).2.1
    ds := decide (0 < dseqOfPkt p fr)
    dseq := dseqOfPkt p fr
    dp := isDupAck p fr && decide (0 < st.capTm - fr.lastTm)
    dupT := if isDupAck p fr then st.capTm - fr.lastTm else 0
    revFlow := fr.revFlow
    noPping := computeNoPping p fr.revFlow
    payLen := p.payLen
    bytesSnt := fr.bytesSnt + p.pktLen
    fstr := flowOf p }

/-- The print decision of lines 411 to 415: nothing is printed when no
flag fired, and in quick mode nothing is printed without an RTD. -/
def emitDecision (cfg : Cfg) (i : PktInfo) : Bool :=
  if !i.pd && !i.sd && !i.ds && !i.dp then false
  else if cfg.quick && (!i.pd && !i.sd) then false
  else true

/-- The classification part of processPacket (everything after the flow
record is at hand): runs both correlation stages, the dseq and dup-ACK
detectors, writes the updated flow record back and bumps the uniDir and
no_TS counters. -/
def classify (cfg : Cfg) (st : MonState) (p : Pkt) (fr : FlowRec) :
    MonState × ProcResult :=
  ({ st with
      flows := replaceT st.flows (flowOf p) (updatedRec st p fr)
      tsTbl := (tsTakeRes cfg st p fr.revFlow).2
      seqTbl := (seqStage cfg st p fr).1
      uniDir := if fr.revFlow then st.uniDir else st.uniDir + 1
      noTS := if p.tsOpt.isNone then st.noTS + 1 else st.noTS },
    ProcResult.done (infoOf cfg st p fr) (emitDecision cfg (infoOf cfg st p fr)))

/-- Capture-clock normalization of lines 285 to 299: the first packet fixes
offTm and startm; later packets measure from offTm.  Times scaled to
microseconds. -/
def capUpdate (st : MonState) (p : Pkt) : MonState :=
  if st.offTm < 0 then
    { st with offTm := p.tsSec, startm := (p.tsUsec : ℤ), capTm := (p.tsUsec : ℤ) }
  else
    { st with capTm := (p.tsSec - st.offTm) * 1000000 + (p.tsUsec : ℤ) }

/-- Flow acquisition of lines 306 to 326: return the existing record, or
create one when the count allows (the guard is flowCnt > maxFlows), marking
both directions bidirectional when the reverse flow is known.  Returns none
when the packet is dropped by the cap. -/
def acquire (cfg : Cfg) (st : MonState) (p : Pkt) :
    Option (MonState × FlowRec) :=
  match findT st.flows (flowOf p) with
  | some fr => some (st, fr)
  | none =>
    if st.flowCnt > cfg.maxFlows then none
    else
      match findT ((flowOf p, ({ flowname := flowOf p } : FlowRec)) :: st.flows)
          (revOf p) with
      | some rf =>
        some ({ st with
                  flows := replaceT
                    ((flowOf p, ({ flowname := flowOf p } : FlowRec)) :: st.flows)
                    (revOf p) { rf with revFlow := true }
                  flowCnt := st.flowCnt + 1 },
              { flowname := flowOf p, revFlow := true })
      | none =>
        some ({ st with
                  flows := (flowOf p, ({ flowname := flowOf p } : FlowRec)) :: st.flows
                  flowCnt := st.flowCnt + 1 },
              { flowname := flowOf p })

/-- processPacket from connmon.cpp, for a packet whose TCP and IP headers
parsed: count it, normalize its capture time, acquire the flow record and
classify. -/
def processPacket (cfg : Cfg) (st : MonState) (p : Pkt) :
    MonState × ProcResult :=
  match acquire cfg (capUpdate { st with pktCnt := st.pktCnt + 1 } p) p with
  | none => (capUpdate { st with pktCnt := st.pktCnt + 1 } p, ProcResult.dropped)
  | some (st2, fr) => classify cfg st2 p fr

/-- cleanUp from connmon.cpp: drop correlation entries older than rtdMaxAge
(measured against capTm) and flows idle longer than flowMaxIdle (measured
against the argument n), decrementing flowCnt per dropped flow. -/
def cleanUp (cfg : Cfg) (st : MonState) (n : ℤ) : MonState :=
  let fl2 := st.flows.filter (fun kv => !decide (cfg.flowMaxIdle < n - kv.2.lastTm))
  { st with
      tsTbl := st.tsTbl.filter (fun kv => !decide (cfg.rtdMaxAge < st.capTm - kv.2))
      seqTbl := st.seqTbl.filter (fun kv => !decide (cfg.rtdMaxAge < st.capTm - kv.2))
      flows := fl2
      flowCnt := st.flowCnt - (st.flows.length - fl2.length) }

/-- The loop-carried variables of main: the monitor state, the two schedule
marks and a count of the packets consumed from the source. -/
structure LoopState where
  st : MonState := {}
  nxtSum : ℤ := 0
  nxtClean : ℤ := 0
  processed : ℕ := 0
deriving DecidableEq, Repr

/-- The run loop of main (lines 664 to 691): process each packet, stop on
the time or count condition, print and reset the periodic summary, run the
periodic cleanup.  A summary resets pktCnt, noTS and uniDir (lines 677 to
681). -/
def runLoop (cfg : Cfg) : List Pkt → LoopState → LoopState
  | [], ls => ls
  | p :: rest, ls =>
    let st := (processPacket cfg ls.st p).1
    let processed := ls.processed + 1
    if (0 < cfg.timeToRun ∧ cfg.timeToRun ≤ st.capTm - st.startm) ∨
        (0 < cfg.maxPackets ∧ cfg.maxPackets ≤ st.pktCnt) then
      { ls with st := st, processed := processed }
    else
      let pair1 : MonState × ℤ :=
        if cfg.sumInt ≠ 0 ∧ ls.nxtSum ≤ st.capTm then
          (if 0 < ls.nxtSum then { st with pktCnt := 0, noTS := 0, uniDir := 0 }
           else st,
           st.capTm + cfg.sumInt)
        else (st, ls.nxtSum)
      let pair2 : MonState × ℤ :=
        if ls.nxtClean ≤ pair1.1.capTm then
          (cleanUp cfg pair1.1 pair1.1.capTm, pair1.1.capTm + cfg.rtdMaxAge)
        else (pair1.1, ls.nxtClean)
      runLoop cfg rest
        { st := pair2.1, nxtSum := pair1.2, nxtClean := pair2.2,
          processed := processed }

/-- Extract the sd flag of a classified packet. -/
def sdOf : ProcResult → Bool
  | ProcResult.dropped => false
  | ProcResult.done i _ => i.sd

/-- Extract the pd flag of a classified packet. -/
def pdOf : ProcResult → Bool
  | ProcResult.dropped => false
  | ProcResult.done i _ => i.pd

/-- Extract the ds flag of a classified packet. -/
def dsOf : ProcResult → Bool
  | ProcResult.dropped => false
  | ProcResult.done i _ => i.ds

/-- Extract the dp flag of a classified packet. -/
def dpOf : ProcResult → Bool
  | ProcResult.dropped => false
  | ProcResult.done i _ => i.dp

/-- Extract the sequence delta of a classified packet. -/
def dseqOf : ProcResult → ℤ
  | ProcResult.dropped => 0
  | ProcResult.done i _ => i.dseq

/-- Extract the print decision of a classified packet. -/
def emitOf : ProcResult → Bool
  | ProcResult.dropped => false
  | ProcResult.done _ e => e

/-- Extract the no_pping value of a classified packet. -/
def noPpingOf : ProcResult → Bool
  | ProcResult.dropped => true
  | ProcResult.done i _ => i.noPping

/-- Spec-side definition, written from the words of the specification for
comparison with the code: ts_usable holds iff a TCP timestamp option is
present AND TSval is nonzero AND (ECR is nonzero OR SYN is set) AND the
flow is bidirectional. -/
def ts_usable (p : Pkt) (bidir : Bool) : Bool :=
  !p.tsOpt.isNone && (tsvalOf p != 0) &&
    ((tsecrOf p != 0) || hasFlag p.flags synFlag) && bidir

/-- An abstract correlation-table operation: a first-writer-wins insert or
a take, the only two mutations the classifier performs between cleanups. -/
inductive TblOp where
  | ins : String → ℤ → TblOp
  | take : String → TblOp
deriving DecidableEq, Repr

/-- Apply one table operation. -/
def applyOp (tbl : List (String × ℤ)) : TblOp → List (String × ℤ)
  | TblOp.ins k t => addTS tbl k t
  | TblOp.take k => (getTStm tbl k).2

/-- Apply a sequence of table operations, oldest first. -/
def applyOps (ops : List TblOp) (tbl : List (String × ℤ)) : List (String × ℤ) :=
  ops.foldl applyOp tbl

/-! Concrete instances used by the counterexamples and witnesses. -/

/-- A data packet of flow 10.0.0.1:1111 to 10.0.0.2:2222 at t = 1.0 s with
seqno 1100 and 100 payload bytes (out-of-order scenario, first packet). -/
def pktOoo1 : Pkt :=
  { tsSec := 1, tsUsec := 0, ipsstr := "10.0.0.1", ipdstr := "10.0.0.2",
    sport := 1111, dport := 2222, flags := 16, seqno := 1100, ackno := 0,
    payLen := 100, pktLen := 140, tsOpt := none }

/-- The second packet of the out-of-order scenario: t = 1.1 s, seqno 1000,
100 payload bytes. -/
def pktOoo2 : Pkt := { pktOoo1 with tsUsec := 100000, seqno := 1000 }

/-- The default configuration (no flags given). -/
def cfgDefault : Cfg := {}

/-- Configuration for the count-flag scenario: -c 3 with the default
verbose summaries. -/
def cfgCount : Cfg := { maxPackets := 3 }

/-- A minimal TCP packet of the count-flag scenario at second s. -/
def pktAt (s : ℤ) : Pkt := { pktOoo1 with tsSec := s }

/-- The five-packet capture of the count-flag scenario: capture seconds
100, 111, 112, 113, 114 (normalized capture times 0, 11, 12, 13, 14 s). -/
def pktsCount : List Pkt :=
  [pktAt 100, pktAt 111, pktAt 112, pktAt 113, pktAt 114]

/-- Configuration for the flow-cap scenario: maxFlows 1. -/
def cfgCap : Cfg := { maxFlows := 1 }

/-- Second flow for the flow-cap scenario. -/
def pktFlowB : Pkt := { pktOoo1 with ipsstr := "10.0.0.3" }

/-- Configuration for the local-filter scenario: filtLocal set (default)
with local address 10.0.0.2, the destination of the test packet. -/
def cfgLocal : Cfg := { localIP := "10.0.0.2" }

/-- The local-filter test packet: a pure ACK with ackno 777 toward the
local address, carrying timestamp option (9, 8). -/
def pktLocal : Pkt :=
  { tsSec := 10, tsUsec := 0, ipsstr := "10.0.0.1", ipdstr := "10.0.0.2",
    sport := 1111, dport := 2222, flags := 16, seqno := 5, ackno := 777,
    payLen := 0, pktLen := 40, tsOpt := some (9, 8) }

/-- The state for the local-filter scenario: the flow is known and
bidirectional, the sequence table holds a matching reverse-direction entry
for ackno 777 and the timestamp table a matching entry for ECR 8, both at
positive times. -/
def stLocal : MonState :=
  { flows := [("10.0.0.1:1111+10.0.0.2:2222",
      { flowname := "10.0.0.1:1111+10.0.0.2:2222", lastTm := 9000000,
        revFlow := true })],
    tsTbl := [("8+10.0.0.2:2222+10.0.0.1:1111", 9400000)],
    seqTbl := [("777+10.0.0.2:2222+10.0.0.1:1111", 9500000)],
    offTm := 0 }

/-- The state for the boundary scenario of the cleanup: capture time 10 s,
one correlation entry of each kind stored at time exactly 0 (age exactly
rtdMaxAge) and one flow last seen 1 s ago. -/
def stClean : MonState :=
  { tsTbl := [("k", 0)], seqTbl := [("s", 500000)],
    flows := [("f", { flowname := "f", lastTm := 9000000 })],
    capTm := 10000000, flowCnt := 1 }

/-- The state for the unidirectional-gate witness: the flow of pktLocal is
known but no reverse direction has been seen. -/
def stUni : MonState :=
  { flows := [("10.0.0.1:1111+10.0.0.2:2222",
      { flowname := "10.0.0.1:1111+10.0.0.2:2222" })],
    offTm := 0 }

/-- The state for the zero-time-entry scenario: the flow of pktLocal is
bidirectional, the timestamp table stores the reverse ECR key and the
sequence table the reverse ackno key, both at the normalized capture time
exactly 0. -/
def stZero : MonState :=
  { flows := [("10.0.0.1:1111+10.0.0.2:2222",
      { flowname := "10.0.0.1:1111+10.0.0.2:2222", revFlow := true })],
    tsTbl := [("8+10.0.0.2:2222+10.0.0.1:1111", 0)],
    seqTbl := [("777+10.0.0.2:2222+10.0.0.1:1111", 0)],
    offTm := 0 }

/-- The state for the zero-gap duplicate-ACK scenario: the flow was last
seen at capture time 5 s with lastAck 777, which is also the capture time
and ackno of the test packet below. -/
def stDup : MonState :=
  { flows := [("10.0.0.1:1111+10.0.0.2:2222",
      { flowname := "10.0.0.1:1111+10.0.0.2:2222", lastTm := 5000000,
        lastAck := 777 })],
    offTm := 0 }

/-- The zero-gap duplicate ACK: pure ACK, empty payload, ackno 777,
capture time 5 s, no timestamp option. -/
def pktDup : Pkt :=
  { tsSec := 5, tsUsec := 0, ipsstr := "10.0.0.1", ipdstr := "10.0.0.2",
    sport := 1111, dport := 2222, flags := 16, seqno := 50, ackno := 777,
    payLen := 0, pktLen := 40, tsOpt := none }

/-! Association-list and table lemmas. -/

theorem findT_eq_none_iff {α : Type} (l : List (String × α)) (k : String) :
    findT l k = none ↔ k ∉ l.map Prod.fst := by
  induction l with
  | nil => simp [findT]
  | cons kv r ih =>
    obtain ⟨k0, v0⟩ := kv
    by_cases h : k0 = k
    · subst h
      simp [findT]
    · simp only [findT, h, if_false, List.map_cons, List.mem_cons, not_or, ih]
      constructor
      · exact fun hr => ⟨fun he => h he.symm, hr⟩
      · exact fun hr => hr.2

theorem findT_eraseT_of_none {α : Type} {l : List (String × α)} {k : String}
    (k2 : String) (h : findT l k = none) : findT (eraseT l k2) k = none := by
  induction l with
  | nil => simpa [eraseT] using h
  | cons kv r ih =>
    obtain ⟨k0, v0⟩ := kv
    by_cases h0 : k0 = k
    · subst h0
      simp [findT] at h
    · rw [findT] at h
      simp only [h0, if_false] at h
      by_cases h2 : k0 = k2
      · simpa [eraseT, h2] using h
      · simp [eraseT, h2, findT, h0, ih h]

theorem findT_eraseT_self {α : Type} {l : List (String × α)} (h : keysNodup l)
    (k : String) : findT (eraseT l k) k = none := by
  induction l with
  | nil => simp [eraseT, findT]
  | cons kv r ih =>
    obtain ⟨k0, v0⟩ := kv
    have hnd : k0 ∉ r.map Prod.fst ∧ keysNodup r := by
      simpa [keysNodup] using h
    by_cases h0 : k0 = k
    · subst h0
      simpa [eraseT] using (findT_eq_none_iff r k0).2 hnd.1
    · simp [eraseT, h0, findT, ih hnd.2]

theorem addTS_found {tbl : List (String × ℤ)} {k : String} {v : ℤ} (t : ℤ)
    (h : findT tbl k = some v) : addTS tbl k t = tbl := by
  unfold addTS
  rw [h]

theorem addTS_absent {tbl : List (String × ℤ)} {k : String} (t : ℤ)
    (h : findT tbl k = none) : addTS tbl k t = (k, t) :: tbl := by
  unfold addTS
  rw [h]

theorem findT_addTS_self_absent {tbl : List (String × ℤ)} {k : String} (t : ℤ)
    (h : findT tbl k = none) : findT (addTS tbl k t) k = some t := by
  rw [addTS_absent t h]
  simp [findT]

theorem findT_addTS_other {tbl : List (String × ℤ)} {k k2 : String} {v : ℤ}
    (t : ℤ) (h : findT tbl k = some v) : findT (addTS tbl k2 t) k = some v := by
  unfold addTS
  cases hf : findT tbl k2 with
  | some w => exact h
  | none =>
    have hne : k2 ≠ k := by
      rintro rfl
      rw [h] at hf
      cases hf
    simp [findT, hne, h]

theorem findT_addTS_none {tbl : List (String × ℤ)} {k k2 : String} (t : ℤ)
    (h : findT tbl k = none) (hne : k2 ≠ k) : findT (addTS tbl k2 t) k = none := by
  unfold addTS
  cases hf : findT tbl k2 <;> simp [findT, hne, h]

theorem keysNodup_addTS {tbl : List (String × ℤ)} {k : String} (t : ℤ)
    (h : keysNodup tbl) : keysNodup (addTS tbl k t) := by
  unfold addTS
  cases hf : findT tbl k with
  | some w => exact h
  | none =>
    have hk : k ∉ tbl.map Prod.fst := (findT_eq_none_iff tbl k).1 hf
    have hmap : ((k, t) :: tbl).map Prod.fst = k :: tbl.map Prod.fst := rfl
    unfold keysNodup
    rw [hmap]
    exact List.nodup_cons.mpr ⟨hk, h⟩

theorem getTStm_found {tbl : List (String × ℤ)} {k : String} {v : ℤ}
    (h : findT tbl k = some v) : getTStm tbl k = (v, eraseT tbl k) := by
  unfold getTStm
  rw [h]

theorem getTStm_absent {tbl : List (String × ℤ)} {k : String}
    (h : findT tbl k = none) : getTStm tbl k = (-1000000, tbl) := by
  unfold getTStm
  rw [h]

theorem getSeqTm_eq_getTStm (tbl : List (String × ℤ)) (k : String) :
    getSeqTm tbl k = getTStm tbl k := rfl

theorem addSeq_eq_addTS (tbl : List (String × ℤ)) (k : String) (t : ℤ) :
    addSeq tbl k t = addTS tbl k t := rfl

theorem replaceT_length {α : Type} (l : List (String × α)) (k : String) (v : α) :
    (replaceT l k v).length = l.length := by
  induction l with
  | nil => rfl
  | cons kv r ih =>
    obtain ⟨k0, v0⟩ := kv
    by_cases h : k0 = k <;> simp [replaceT, h, ih]

theorem applyOps_nil (tbl : List (String × ℤ)) : applyOps [] tbl = tbl := rfl

theorem applyOps_cons (op : TblOp) (ops : List TblOp) (tbl : List (String × ℤ)) :
    applyOps (op :: ops) tbl = applyOps ops (applyOp tbl op) := rfl

theorem findT_applyOps_none {ops : List TblOp} {tbl : List (String × ℤ)}
    {k : String} (h : findT tbl k = none)
    (hni : ∀ u : ℤ, TblOp.ins k u ∉ ops) :
    findT (applyOps ops tbl) k = none := by
  induction ops generalizing tbl with
  | nil => exact h
  | cons op rest ih =>
    have hni2 : ∀ u : ℤ, TblOp.ins k u ∉ rest := fun u hu =>
      hni u (List.mem_cons_of_mem _ hu)
    rw [applyOps_cons]
    cases op with
    | ins k2 t =>
      have hne : k2 ≠ k := by
        rintro rfl
        exact hni t (List.mem_cons_self _ _)
      exact ih (findT_addTS_none t h hne) hni2
    | take k2 =>
      cases hf : findT tbl k2 with
      | some v =>
        have : applyOp tbl (TblOp.take k2) = eraseT tbl k2 := by
          simp [applyOp, getTStm_found hf]
        rw [this] at *
        exact ih (findT_eraseT_of_none k2 h) hni2
      | none =>
        have : applyOp tbl (TblOp.take k2) = tbl := by
          simp [applyOp, getTStm_absent hf]
        rw [this]
        exact ih h hni2

/-! Claim theorems on the correlation tables (C5, C6, C7). -/

/-- C5: for every correlation key, after a successful take (which removes
the entry and returns its stored time), every subsequent take fails with
the absent sentinel, across any sequence of further table operations that
does not insert the key again; presence returns only once a new
first-writer-wins insert of the key succeeds.  Holds for the timestamp and
the sequence table (getSeqTm and addSeq act identically). -/
theorem take_removes_entry_until_reinsert (tbl : List (String × ℤ))
    (k : String) (t : ℤ) (hnd : keysNodup tbl) (hf : findT tbl k = some t)
    (ops : List TblOp) (hni : ∀ u : ℤ, TblOp.ins k u ∉ ops) :
    (getTStm tbl k).1 = t ∧
    findT (applyOps ops (getTStm tbl k).2) k = none ∧
    (getTStm (applyOps ops (getTStm tbl k).2) k).1 = -1000000 ∧
    (getSeqTm (applyOps ops (getTStm tbl k).2) k).1 = -1000000 ∧
    ∀ u : ℤ, findT (addTS (applyOps ops (getTStm tbl k).2) k u) k = some u ∧
      findT (addSeq (applyOps ops (getTStm tbl k).2) k u) k = some u := by
  have hg : getTStm tbl k = (t, eraseT tbl k) := getTStm_found hf
  have habs : findT (eraseT tbl k) k = none := findT_eraseT_self hnd k
  have habs2 : findT (applyOps ops (getTStm tbl k).2) k = none := by
    rw [hg]
    exact findT_applyOps_none habs hni
  refine ⟨by rw [hg], habs2, ?_, ?_, ?_⟩
  · rw [getTStm_absent habs2]
  · rw [getSeqTm_eq_getTStm, getTStm_absent habs2]
  · intro u
    refine ⟨findT_addTS_self_absent u habs2, ?_⟩
    rw [addSeq_eq_addTS]
    exact findT_addTS_self_absent u habs2

/-- Witness for C5 at a concrete table: key 42+b+a stored at time 3 is
taken; after a take of another key and a take of the same key, lookups
still return the sentinel, and a fresh insert stores anew. -/
theorem take_removes_entry_until_reinsert_witness :
    (getTStm [("42+b+a", (3:ℤ))] "42+b+a").1 = 3 ∧
    findT (applyOps [TblOp.take "9+c+d", TblOp.take "42+b+a"]
      (getTStm [("42+b+a", (3:ℤ))] "42+b+a").2) "42+b+a" = none ∧
    (getTStm (applyOps [TblOp.take "9+c+d", TblOp.take "42+b+a"]
      (getTStm [("42+b+a", (3:ℤ))] "42+b+a").2) "42+b+a").1 = -1000000 ∧
    (getSeqTm (applyOps [TblOp.take "9+c+d", TblOp.take "42+b+a"]
      (getTStm [("42+b+a", (3:ℤ))] "42+b+a").2) "42+b+a").1 = -1000000 ∧
    ∀ u : ℤ, findT (addTS (applyOps [TblOp.take "9+c+d", TblOp.take "42+b+a"]
        (getTStm [("42+b+a", (3:ℤ))] "42+b+a").2) "42+b+a" u) "42+b+a" = some u ∧
      findT (addSeq (applyOps [TblOp.take "9+c+d", TblOp.take "42+b+a"]
        (getTStm [("42+b+a", (3:ℤ))] "42+b+a").2) "42+b+a" u) "42+b+a" = some u :=
  take_removes_entry_until_reinsert [("42+b+a", (3:ℤ))] "42+b+a" 3
    (by decide) (by decide) [TblOp.take "9+c+d", TblOp.take "42+b+a"]
    (by
      intro u hu
      rcases List.mem_cons.mp hu with h | hu2
      · cases h
      · rcases List.mem_cons.mp hu2 with h | h
        · cases h
        · cases h)

/-- C6: correlation-table insertion is first-writer-wins: inserting a
fresh key k at time t and then inserting k again at a later time leaves
the stored value equal to t, in both the timestamp table and the sequence
table. -/
theorem tryInsert_first_writer_wins (tbl : List (String × ℤ)) (k : String)
    (t t2 : ℤ) (hf : findT tbl k = none) (_hlt : t < t2) :
    findT (addTS (addTS tbl k t) k t2) k = some t ∧
    findT (addSeq (addSeq tbl k t) k t2) k = some t := by
  have h1 : findT (addTS tbl k t) k = some t := findT_addTS_self_absent t hf
  have h2 : addTS (addTS tbl k t) k t2 = addTS tbl k t := addTS_found t2 h1
  constructor
  · rw [h2]
    exact h1
  · rw [addSeq_eq_addTS, addSeq_eq_addTS, h2]
    exact h1

/-- Witness for C6 at a concrete table. -/
theorem tryInsert_first_writer_wins_witness :
    findT (addTS (addTS [] "100+a+b" 5) "100+a+b" 7) "100+a+b" = some 5 ∧
    findT (addSeq (addSeq [] "100+a+b" 5) "100+a+b" 7) "100+a+b" = some 5 :=
  tryInsert_first_writer_wins [] "100+a+b" 5 7 (by decide) (by decide)

/-- Counterexample for C7 as stated: after the cleanup (which implements
evict_old with now = capTm and max age rtdMaxAge), an entry stored at time
exactly now - age survives, and its time is not strictly greater than
now - age.  Concretely: capture time 10 s, age 10 s, entry stored at 0. -/
theorem evict_old_boundary_cex :
    ("k", (0:ℤ)) ∈ (cleanUp cfgDefault stClean stClean.capTm).tsTbl ∧
    ¬ ((0:ℤ) > stClean.capTm - cfgDefault.rtdMaxAge) := by
  constructor
  · decide
  · decide

/-- C7 amended: after the cleanup, every remaining correlation entry (in
either table) has stored time at least capTm - rtdMaxAge (not strictly
greater: the boundary entry survives), and every remaining flow has
lastTm at least n - flowMaxIdle. -/
theorem cleanup_age_bounds (cfg : Cfg) (st : MonState) (n : ℤ) :
    (∀ k : String, ∀ tm : ℤ, (k, tm) ∈ (cleanUp cfg st n).tsTbl →
      st.capTm - cfg.rtdMaxAge ≤ tm) ∧
    (∀ k : String, ∀ tm : ℤ, (k, tm) ∈ (cleanUp cfg st n).seqTbl →
      st.capTm - cfg.rtdMaxAge ≤ tm) ∧
    (∀ k : String, ∀ fr : FlowRec, (k, fr) ∈ (cleanUp cfg st n).flows →
      n - cfg.flowMaxIdle ≤ fr.lastTm) := by
  refine ⟨?_, ?_, ?_⟩
  · intro k tm hm
    have h2 : (k, tm) ∈ st.tsTbl ∧ st.capTm ≤ cfg.rtdMaxAge + tm := by
      simpa [cleanUp] using hm
    omega
  · intro k tm hm
    have h2 : (k, tm) ∈ st.seqTbl ∧ st.capTm ≤ cfg.rtdMaxAge + tm := by
      simpa [cleanUp] using hm
    omega
  · intro k fr hm
    have h2 : (k, fr) ∈ st.flows ∧ n ≤ cfg.flowMaxIdle + fr.lastTm := by
      simpa [cleanUp] using hm
    omega

/-- Witness for the amended C7 at the boundary state: the surviving
boundary entry, sequence entry and flow all satisfy the lower bounds. -/
theorem cleanup_age_bounds_witness :
    stClean.capTm - cfgDefault.rtdMaxAge ≤ (0:ℤ) ∧
    stClean.capTm - cfgDefault.rtdMaxAge ≤ (500000:ℤ) ∧
    stClean.capTm - cfgDefault.flowMaxIdle ≤
      ({ flowname := "f", lastTm := 9000000 } : FlowRec).lastTm :=
  ⟨(cleanup_age_bounds cfgDefault stClean stClean.capTm).1 "k" 0 (by decide),
   (cleanup_age_bounds cfgDefault stClean stClean.capTm).2.1 "s" 500000 (by decide),
   (cleanup_age_bounds cfgDefault stClean stClean.capTm).2.2 "f"
     { flowname := "f", lastTm := 9000000 } (by decide)⟩

/-! Plumbing lemmas about processPacket. -/

theorem processPacket_eq_classify {cfg : Cfg} {st : MonState} {p : Pkt}
    {st2 : MonState} {fr : FlowRec}
    (hacq : acquire cfg (capUpdate { st with pktCnt := st.pktCnt + 1 } p) p
      = some (st2, fr)) :
    processPacket cfg st p = classify cfg st2 p fr := by
  unfold processPacket
  rw [hacq]

theorem capUpdate_pres (st : MonState) (p : Pkt) :
    (capUpdate st p).flows = st.flows ∧ (capUpdate st p).flowCnt = st.flowCnt ∧
    (capUpdate st p).tsTbl = st.tsTbl ∧ (capUpdate st p).seqTbl = st.seqTbl ∧
    (capUpdate st p).uniDir = st.uniDir ∧ (capUpdate st p).noTS = st.noTS := by
  unfold capUpdate
  split <;> exact ⟨rfl, rfl, rfl, rfl, rfl, rfl⟩

theorem acquire_pres {cfg : Cfg} {s : MonState} {p : Pkt} {st2 : MonState}
    {fr : FlowRec} (h : acquire cfg s p = some (st2, fr)) :
    st2.tsTbl = s.tsTbl ∧ st2.seqTbl = s.seqTbl ∧ st2.uniDir = s.uniDir ∧
    st2.noTS = s.noTS ∧ st2.capTm = s.capTm := by
  unfold acquire at h
  cases hf : findT s.flows (flowOf p) with
  | some fr0 =>
    rw [hf] at h
    simp only [Option.some.injEq, Prod.mk.injEq] at h
    obtain ⟨h1, h2⟩ := h
    subst h1
    exact ⟨rfl, rfl, rfl, rfl, rfl⟩
  | none =>
    rw [hf] at h
    by_cases hc : s.flowCnt > cfg.maxFlows
    · simp [hc] at h
    · simp only [hc, if_false] at h
      cases hf2 : findT ((flowOf p, ({ flowname := flowOf p } : FlowRec)) :: s.flows)
          (revOf p) with
      | some rf =>
        rw [hf2] at h
        simp only [Option.some.injEq, Prod.mk.injEq] at h
        obtain ⟨h1, h2⟩ := h
        rw [← h1]
        exact ⟨rfl, rfl, rfl, rfl, rfl⟩
      | none =>
        rw [hf2] at h
        simp only [Option.some.injEq, Prod.mk.injEq] at h
        obtain ⟨h1, h2⟩ := h
        rw [← h1]
        exact ⟨rfl, rfl, rfl, rfl, rfl⟩

theorem acquire_flows_length {cfg : Cfg} {s : MonState} {p : Pkt}
    {st2 : MonState} {fr : FlowRec} (h : acquire cfg s p = some (st2, fr))
    (hsync : s.flowCnt = s.flows.length) :
    st2.flowCnt = st2.flows.length ∧
    (st2.flows.length = s.flows.length ∨
      (st2.flows.length = s.flows.length + 1 ∧ s.flows.length ≤ cfg.maxFlows)) := by
  unfold acquire at h
  cases hf : findT s.flows (flowOf p) with
  | some fr0 =>
    rw [hf] at h
    simp only [Option.some.injEq, Prod.mk.injEq] at h
    obtain ⟨h1, h2⟩ := h
    subst h1
    exact ⟨hsync, Or.inl rfl⟩
  | none =>
    rw [hf] at h
    by_cases hc : s.flowCnt > cfg.maxFlows
    · simp [hc] at h
    · have hle : s.flows.length ≤ cfg.maxFlows := by omega
      simp only [hc, if_false] at h
      cases hf2 : findT ((flowOf p, ({ flowname := flowOf p } : FlowRec)) :: s.flows)
          (revOf p) with
      | some rf =>
        rw [hf2] at h
        simp only [Option.some.injEq, Prod.mk.injEq] at h
        obtain ⟨h1, h2⟩ := h
        rw [← h1]
        refine ⟨?_, Or.inr ⟨?_, hle⟩⟩ <;>
          simp [replaceT_length, hsync, List.length_cons]
      | none =>
        rw [hf2] at h
        simp only [Option.some.injEq, Prod.mk.injEq] at h
        obtain ⟨h1, h2⟩ := h
        rw [← h1]
        refine ⟨?_, Or.inr ⟨?_, hle⟩⟩ <;> simp [hsync, List.length_cons]

theorem classify_flows (cfg : Cfg) (st : MonState) (p : Pkt) (fr : FlowRec) :
    (classify cfg st p fr).1.flows
      = replaceT st.flows (flowOf p) (updatedRec st p fr) := rfl

theorem classify_flowCnt (cfg : Cfg) (st : MonState) (p : Pkt) (fr : FlowRec) :
    (classify cfg st p fr).1.flowCnt = st.flowCnt := rfl

theorem classify_tsTbl (cfg : Cfg) (st : MonState) (p : Pkt) (fr : FlowRec) :
    (classify cfg st p fr).1.tsTbl = (tsTakeRes cfg st p fr.revFlow).2 := rfl

theorem classify_seqTbl (cfg : Cfg) (st : MonState) (p : Pkt) (fr : FlowRec) :
    (classify cfg st p fr).1.seqTbl = (seqStage cfg st p fr).1 := rfl

theorem classify_uniDir (cfg : Cfg) (st : MonState) (p : Pkt) (fr : FlowRec) :
    (classify cfg st p fr).1.uniDir
      = (if fr.revFlow then st.uniDir else st.uniDir + 1) := rfl

theorem classify_snd (cfg : Cfg) (st : MonState) (p : Pkt) (fr : FlowRec) :
    (classify cfg st p fr).2
      = ProcResult.done (infoOf cfg st p fr)
          (emitDecision cfg (infoOf cfg st p fr)) := rfl

theorem computeNoPping_eq_not_ts_usable (p : Pkt) (rev : Bool) :
    computeNoPping p rev = !(ts_usable p rev) := by
  unfold computeNoPping ts_usable
  simp only [bne]
  cases hb : p.tsOpt.isNone <;> cases hv : (tsvalOf p == 0) <;>
    cases he : (tsecrOf p == 0) <;> cases hs : hasFlag p.flags synFlag <;>
    cases rev <;> simp [hb, hv, he, hs]

theorem seqStage_not_local {cfg : Cfg} {p : Pkt} (st : MonState) (fr : FlowRec)
    (hnl : notLocalB cfg p = false) :
    seqStage cfg st p fr = (st.seqTbl, 0, false) := by
  unfold seqStage
  rw [hnl]
  simp

theorem seqStage_sd_no_rev {cfg : Cfg} {p : Pkt} (st : MonState) {fr : FlowRec}
    (hrev : fr.revFlow = false) :
    (seqStage cfg st p fr).2.2 = false := by
  unfold seqStage seqLookupGuard seqTblAfterIns
  rw [hrev]
  by_cases hnl : notLocalB cfg p = true <;> simp [hnl]

theorem tsTblAfterIns_not_local {cfg : Cfg} {p : Pkt} (st : MonState)
    (rev : Bool) (hnl : notLocalB cfg p = false) :
    tsTblAfterIns cfg st p rev = st.tsTbl := by
  unfold tsTblAfterIns
  rw [hnl]
  split <;> rfl

theorem tsTakeRes_noPping {cfg : Cfg} {p : Pkt} (st : MonState) {rev : Bool}
    (hnp : computeNoPping p rev = true) :
    tsTakeRes cfg st p rev = (-1000000, tsTblAfterIns cfg st p rev) := by
  unfold tsTakeRes
  rw [hnp]
  simp

theorem tsTakeRes_pping {cfg : Cfg} {p : Pkt} (st : MonState) {rev : Bool}
    (hnp : computeNoPping p rev = false) :
    tsTakeRes cfg st p rev = getTStm (tsTblAfterIns cfg st p rev) (ecrKey p) := by
  unfold tsTakeRes
  rw [hnp]
  simp

theorem tsTblAfterIns_noPping {cfg : Cfg} {p : Pkt} (st : MonState) {rev : Bool}
    (hnp : computeNoPping p rev = true) :
    tsTblAfterIns cfg st p rev = st.tsTbl := by
  unfold tsTblAfterIns
  rw [hnp]
  simp

theorem seqStage_lookup {cfg : Cfg} {p : Pkt} (st : MonState) {fr : FlowRec}
    (hnl : notLocalB cfg p = true) (hg : seqLookupGuard p fr = true) :
    seqStage cfg st p fr
      = ((getSeqTm (seqTblAfterIns st p fr) (ackKey p)).2,
         (if 0 < (getSeqTm (seqTblAfterIns st p fr) (ackKey p)).1 then
            st.capTm - (getSeqTm (seqTblAfterIns st p fr) (ackKey p)).1
          else 0),
         decide (0 < (getSeqTm (seqTblAfterIns st p fr) (ackKey p)).1)) := by
  unfold seqStage
  rw [hnl, hg]
  simp

theorem processPacket_dropped {cfg : Cfg} {st : MonState} {p : Pkt}
    (hacq : acquire cfg (capUpdate { st with pktCnt := st.pktCnt + 1 } p) p
      = none) :
    processPacket cfg st p
      = (capUpdate { st with pktCnt := st.pktCnt + 1 } p, ProcResult.dropped) := by
  unfold processPacket
  rw [hacq]

/-! Claim theorems on processPacket (C1, C2, C3, C4, C8, C9, C10). -/

/-- Counterexample for C1 as stated: filtLocal is set, the destination IP
is the local IP, the flow is bidirectional, the packet is a pure ACK with
a fresh ackno, and the sequence table holds a matching reverse-direction
entry at a positive time; yet no seq-RTT sample is produced (sd stays
false) and the sequence table is untouched, because the code skips the
sequence-ack lookup together with the inserts.  The timestamp lookup, in
contrast, does still run (pd fires from the matching timestamp entry). -/
theorem local_filter_seq_sample_cex :
    findT stLocal.seqTbl (ackKey pktLocal) = some 9500000 ∧
    sdOf (processPacket cfgLocal stLocal pktLocal).2 = false ∧
    (processPacket cfgLocal stLocal pktLocal).1.seqTbl = stLocal.seqTbl ∧
    pdOf (processPacket cfgLocal stLocal pktLocal).2 = true := by decide

/-- C1 amended: for every processed packet with filtLocal set and the
destination IP equal to the local IP, the whole sequence block is skipped
(the table is unchanged and sd cannot fire), the timestamp insert is
skipped, but the timestamp lookup is still performed whenever the
timestamp gate (no_pping clear) allows: the new timestamp table is the
take-result of the old one and pd reflects the time found there. -/
theorem local_filter_skips_seq_lookup (cfg : Cfg) (st : MonState) (p : Pkt)
    (st2 : MonState) (fr : FlowRec)
    (hacq : acquire cfg (capUpdate { st with pktCnt := st.pktCnt + 1 } p) p
      = some (st2, fr))
    (hfl : cfg.filtLocal = true) (hloc : cfg.localIP = p.ipdstr) :
    (processPacket cfg st p).1.seqTbl = st.seqTbl ∧
    sdOf (processPacket cfg st p).2 = false ∧
    (computeNoPping p fr.revFlow = true →
      (processPacket cfg st p).1.tsTbl = st.tsTbl ∧
      pdOf (processPacket cfg st p).2 = false) ∧
    (computeNoPping p fr.revFlow = false →
      (processPacket cfg st p).1.tsTbl = (getTStm st.tsTbl (ecrKey p)).2 ∧
      pdOf (processPacket cfg st p).2
        = decide (0 < (getTStm st.tsTbl (ecrKey p)).1)) := by
  have hpp := processPacket_eq_classify hacq
  have hts2 : st2.tsTbl = st.tsTbl :=
    (acquire_pres hacq).1.trans ((capUpdate_pres _ p).2.2.1)
  have hsq2 : st2.seqTbl = st.seqTbl :=
    (acquire_pres hacq).2.1.trans ((capUpdate_pres _ p).2.2.2.1)
  have hnl : notLocalB cfg p = false := by
    simp [notLocalB, hfl, hloc]
  refine ⟨?_, ?_, ?_, ?_⟩
  · rw [hpp, classify_seqTbl, seqStage_not_local st2 fr hnl]
    exact hsq2
  · rw [hpp, classify_snd]
    show (seqStage cfg st2 p fr).2.2 = false
    rw [seqStage_not_local st2 fr hnl]
  · intro hnp
    constructor
    · rw [hpp, classify_tsTbl, tsTakeRes_noPping st2 hnp,
        tsTblAfterIns_noPping st2 hnp]
      exact hts2
    · rw [hpp, classify_snd]
      show decide (0 < (tsTakeRes cfg st2 p fr.revFlow).1) = false
      rw [tsTakeRes_noPping st2 hnp]
      rfl
  · intro hnp
    have hti : tsTblAfterIns cfg st2 p fr.revFlow = st.tsTbl := by
      rw [tsTblAfterIns_not_local st2 fr.revFlow hnl]
      exact hts2
    constructor
    · rw [hpp, classify_tsTbl, tsTakeRes_pping st2 hnp, hti]
    · rw [hpp, classify_snd]
      show decide (0 < (tsTakeRes cfg st2 p fr.revFlow).1)
        = decide (0 < (getTStm st.tsTbl (ecrKey p)).1)
      rw [tsTakeRes_pping st2 hnp, hti]

/-- Witness for the amended C1 on the concrete local-filter scenario. -/
theorem local_filter_skips_seq_lookup_witness :
    (processPacket cfgLocal stLocal pktLocal).1.seqTbl = stLocal.seqTbl ∧
    sdOf (processPacket cfgLocal stLocal pktLocal).2 = false ∧
    (processPacket cfgLocal stLocal pktLocal).1.tsTbl
      = (getTStm stLocal.tsTbl (ecrKey pktLocal)).2 ∧
    pdOf (processPacket cfgLocal stLocal pktLocal).2
      = decide (0 < (getTStm stLocal.tsTbl (ecrKey pktLocal)).1) := by
  have h := local_filter_skips_seq_lookup cfgLocal stLocal pktLocal
    (capUpdate { stLocal with pktCnt := stLocal.pktCnt + 1 } pktLocal)
    { flowname := "10.0.0.1:1111+10.0.0.2:2222", lastTm := 9000000,
      revFlow := true }
    (by decide) rfl rfl
  exact ⟨h.1, h.2.1, (h.2.2.2 (by decide)).1, (h.2.2.2 (by decide)).2⟩

/-- Counterexample for C2 as stated: in the out-of-order scenario (seqno
1100 with 100 payload bytes at t = 1.0 s, then seqno 1000 with 100 payload
bytes at t = 1.1 s, no RTT match, no duplicate ACK) the second packet
produces no observation at all: the emission decision is false, so no
line carrying dseq = -200 is printed. -/
theorem oo_dseq_no_observation_cex :
    emitOf (processPacket cfgDefault
      (processPacket cfgDefault {} pktOoo1).1 pktOoo2).2 = false := by decide

/-- C2 amended: on the second packet of the out-of-order scenario the
signed delta dseq = -200 is computed internally, but a negative delta sets
no emission flag (only dseq > 0 does), so with no RTT sample and no
duplicate ACK the packet emits no observation; the signed value would
only appear on a line some other indicator triggers. -/
theorem oo_dseq_computed_not_emitted :
    dseqOf (processPacket cfgDefault
      (processPacket cfgDefault {} pktOoo1).1 pktOoo2).2 = -200 ∧
    dsOf (processPacket cfgDefault
      (processPacket cfgDefault {} pktOoo1).1 pktOoo2).2 = false ∧
    emitOf (processPacket cfgDefault
      (processPacket cfgDefault {} pktOoo1).1 pktOoo2).2 = false := by decide

/-- C3 (code bug): with maxPackets = 3 (flag -c 3) and the default
verbose summaries (sumInt = 10 s), the run loop consumes all five packets
of the count scenario (capture seconds 100, 111, 112, 113, 114): the
periodic summary of the loop resets pktCnt, the very counter the
termination condition tests, so the loop fails to stop at 3 packets.  The
final pktCnt is 3 even though 5 packets were processed. -/
theorem count_flag_exceeded :
    (runLoop cfgCount pktsCount {}).processed = 5 ∧
    (runLoop cfgCount pktsCount {}).st.pktCnt = 3 ∧
    cfgCount.maxPackets = 3 := by decide

/-- Counterexample for C4 as stated: with maxFlows = 1, processing two
packets of two distinct flows from the empty state creates two flow
records (the creation guard is flowCnt > maxFlows, so the count reaches
maxFlows + 1). -/
theorem flow_cap_exceeded_cex :
    (processPacket cfgCap (processPacket cfgCap {} pktOoo1).1 pktFlowB).1.flowCnt
      = 2 ∧
    (processPacket cfgCap
      (processPacket cfgCap {} pktOoo1).1 pktFlowB).1.flows.length = 2 ∧
    cfgCap.maxFlows = 1 := by decide

/-- C4 amended: the live flow count is bounded by maxFlows + 1 (not
maxFlows): a record is created exactly when the key is new and
flowCnt ≤ maxFlows, so one creation may land on top of a full table.
Preservation form: if flowCnt mirrors the table size and the size is at
most maxFlows + 1, both facts still hold after processPacket. -/
theorem flow_table_cap_plus_one (cfg : Cfg) (st : MonState) (p : Pkt)
    (hsync : st.flowCnt = st.flows.length)
    (hcap : st.flows.length ≤ cfg.maxFlows + 1) :
    (processPacket cfg st p).1.flows.length ≤ cfg.maxFlows + 1 ∧
    (processPacket cfg st p).1.flowCnt
      = (processPacket cfg st p).1.flows.length := by
  cases hacq : acquire cfg (capUpdate { st with pktCnt := st.pktCnt + 1 } p) p with
  | none =>
    rw [processPacket_dropped hacq]
    constructor
    · rw [(capUpdate_pres _ p).1]
      exact hcap
    · rw [(capUpdate_pres _ p).1, (capUpdate_pres _ p).2.1]
      exact hsync
  | some sf =>
    obtain ⟨st2, fr⟩ := sf
    rw [processPacket_eq_classify hacq]
    have hsync2 : (capUpdate { st with pktCnt := st.pktCnt + 1 } p).flowCnt
        = (capUpdate { st with pktCnt := st.pktCnt + 1 } p).flows.length := by
      rw [(capUpdate_pres _ p).1, (capUpdate_pres _ p).2.1]
      exact hsync
    have hafl := acquire_flows_length hacq hsync2
    have hlen : (classify cfg st2 p fr).1.flows.length = st2.flows.length := by
      rw [classify_flows]
      exact replaceT_length _ _ _
    constructor
    · rw [hlen]
      rcases hafl.2 with h | h
      · rw [h, (capUpdate_pres _ p).1]
        exact hcap
      · obtain ⟨h1, h2⟩ := h
        omega
    · rw [hlen, classify_flowCnt]
      exact hafl.1

/-- Witness for the amended C4: processing one packet from the empty
state respects the bound. -/
theorem flow_table_cap_plus_one_witness :
    (processPacket cfgDefault ({} : MonState) pktOoo1).1.flows.length
      ≤ cfgDefault.maxFlows + 1 ∧
    (processPacket cfgDefault ({} : MonState) pktOoo1).1.flowCnt
      = (processPacket cfgDefault ({} : MonState) pktOoo1).1.flows.length :=
  flow_table_cap_plus_one cfgDefault {} pktOoo1 (by decide) (by decide)

/-- C8: for every processed packet, the no_pping gate equals the negation
of the spec formula ts_usable (timestamp option present AND TSval nonzero
AND (ECR nonzero OR SYN) AND flow bidirectional); and a packet of a flow
with no reverse direction produces neither kind of RTT sample and bumps
the unidirectional counter by one. -/
theorem ts_gate_iff_and_unidirectional (cfg : Cfg) (st : MonState) (p : Pkt)
    (st2 : MonState) (fr : FlowRec)
    (hacq : acquire cfg (capUpdate { st with pktCnt := st.pktCnt + 1 } p) p
      = some (st2, fr)) :
    noPpingOf (processPacket cfg st p).2 = !(ts_usable p fr.revFlow) ∧
    (fr.revFlow = false →
      pdOf (processPacket cfg st p).2 = false ∧
      sdOf (processPacket cfg st p).2 = false ∧
      (processPacket cfg st p).1.uniDir = st.uniDir + 1) := by
  have hpp := processPacket_eq_classify hacq
  constructor
  · rw [hpp, classify_snd]
    show computeNoPping p fr.revFlow = !(ts_usable p fr.revFlow)
    exact computeNoPping_eq_not_ts_usable p fr.revFlow
  · intro hrev
    have hnp : computeNoPping p fr.revFlow = true := by
      unfold computeNoPping
      rw [hrev]
      simp
    have hu : st2.uniDir = st.uniDir :=
      (acquire_pres hacq).2.2.1.trans ((capUpdate_pres _ p).2.2.2.2.1)
    refine ⟨?_, ?_, ?_⟩
    · rw [hpp, classify_snd]
      show decide (0 < (tsTakeRes cfg st2 p fr.revFlow).1) = false
      rw [tsTakeRes_noPping st2 hnp]
      rfl
    · rw [hpp, classify_snd]
      show (seqStage cfg st2 p fr).2.2 = false
      exact seqStage_sd_no_rev st2 hrev
    · rw [hpp, classify_uniDir, hrev, hu]
      simp

/-- Witness for C8 on a concrete unidirectional flow. -/
theorem ts_gate_iff_and_unidirectional_witness :
    noPpingOf (processPacket cfgDefault stUni pktLocal).2
      = !(ts_usable pktLocal false) ∧
    pdOf (processPacket cfgDefault stUni pktLocal).2 = false ∧
    sdOf (processPacket cfgDefault stUni pktLocal).2 = false ∧
    (processPacket cfgDefault stUni pktLocal).1.uniDir = stUni.uniDir + 1 := by
  have h := ts_gate_iff_and_unidirectional cfgDefault stUni pktLocal
    (capUpdate { stUni with pktCnt := stUni.pktCnt + 1 } pktLocal)
    { flowname := "10.0.0.1:1111+10.0.0.2:2222" }
    (by decide)
  exact ⟨h.1, (h.2 rfl).1, (h.2 rfl).2.1, (h.2 rfl).2.2⟩

/-- C9: a correlation entry stored at normalized capture time exactly 0
can never produce an RTT sample, in either table.  For a processed packet
whose timestamp gate is open and whose reverse ECR key is stored at time
0, the lookup consumes the entry (it is gone from the table afterwards)
yet pd stays false because the emission test 0 < t fails; likewise, when
the sequence-lookup guard holds and the reverse ackno key is stored at
time 0, the lookup consumes the entry and sd stays false.  A later take
of either key returns the absent sentinel -1000000, which fails the same
0 < t test, so the zero-time hit and an absent key are indistinguishable
at the call site. -/
theorem zero_time_entry_no_rtt (cfg : Cfg) (st : MonState) (p : Pkt)
    (st2 : MonState) (fr : FlowRec)
    (hacq : acquire cfg (capUpdate { st with pktCnt := st.pktCnt + 1 } p) p
      = some (st2, fr))
    (hnp : computeNoPping p fr.revFlow = false)
    (hnd : keysNodup st.tsTbl)
    (hf : findT st.tsTbl (ecrKey p) = some 0)
    (hnl : notLocalB cfg p = true)
    (hg : seqLookupGuard p fr = true)
    (hnds : keysNodup st.seqTbl)
    (hfs : findT st.seqTbl (ackKey p) = some 0) :
    (pdOf (processPacket cfg st p).2 = false ∧
      findT (processPacket cfg st p).1.tsTbl (ecrKey p) = none ∧
      (getTStm (processPacket cfg st p).1.tsTbl (ecrKey p)).1 = -1000000) ∧
    (sdOf (processPacket cfg st p).2 = false ∧
      findT (processPacket cfg st p).1.seqTbl (ackKey p) = none ∧
      (getSeqTm (processPacket cfg st p).1.seqTbl (ackKey p)).1 = -1000000) ∧
    ¬ ((0:ℤ) < 0) ∧ ¬ ((0:ℤ) < -1000000) := by
  have hpp := processPacket_eq_classify hacq
  have hts2 : st2.tsTbl = st.tsTbl :=
    (acquire_pres hacq).1.trans ((capUpdate_pres _ p).2.2.1)
  have hsq2 : st2.seqTbl = st.seqTbl :=
    (acquire_pres hacq).2.1.trans ((capUpdate_pres _ p).2.2.2.1)
  have hfi : findT (tsTblAfterIns cfg st2 p fr.revFlow) (ecrKey p) = some 0 := by
    unfold tsTblAfterIns
    rw [hnp, hts2]
    by_cases hnl2 : notLocalB cfg p = true
    · simp only [hnl2, Bool.false_eq_true, if_false, if_true]
      exact findT_addTS_other _ hf
    · simp only [hnl2, Bool.false_eq_true, if_false]
      exact hf
  have hnd2 : keysNodup (tsTblAfterIns cfg st2 p fr.revFlow) := by
    unfold tsTblAfterIns
    rw [hnp, hts2]
    by_cases hnl2 : notLocalB cfg p = true
    · simp only [hnl2, Bool.false_eq_true, if_false, if_true]
      exact keysNodup_addTS _ hnd
    · simp only [hnl2, Bool.false_eq_true, if_false]
      exact hnd
  have htr : tsTakeRes cfg st2 p fr.revFlow
      = (0, eraseT (tsTblAfterIns cfg st2 p fr.revFlow) (ecrKey p)) := by
    rw [tsTakeRes_pping st2 hnp, getTStm_found hfi]
  have habs : findT (eraseT (tsTblAfterIns cfg st2 p fr.revFlow) (ecrKey p))
      (ecrKey p) = none := findT_eraseT_self hnd2 _
  have hfsi : findT (seqTblAfterIns st2 p fr) (ackKey p) = some 0 := by
    unfold seqTblAfterIns
    rw [hsq2]
    by_cases hins : (fr.revFlow && decide (0 < p.payLen)) = true
    · simp only [hins, if_true]
      rw [addSeq_eq_addTS]
      exact findT_addTS_other _ hfs
    · simp only [hins, Bool.false_eq_true, if_false]
      exact hfs
  have hnds2 : keysNodup (seqTblAfterIns st2 p fr) := by
    unfold seqTblAfterIns
    rw [hsq2]
    by_cases hins : (fr.revFlow && decide (0 < p.payLen)) = true
    · simp only [hins, if_true]
      rw [addSeq_eq_addTS]
      exact keysNodup_addTS _ hnds
    · simp only [hins, Bool.false_eq_true, if_false]
      exact hnds
  have hsr : getSeqTm (seqTblAfterIns st2 p fr) (ackKey p)
      = (0, eraseT (seqTblAfterIns st2 p fr) (ackKey p)) := by
    rw [getSeqTm_eq_getTStm, getTStm_found hfsi]
  have habss : findT (eraseT (seqTblAfterIns st2 p fr) (ackKey p))
      (ackKey p) = none := findT_eraseT_self hnds2 _
  refine ⟨⟨?_, ?_, ?_⟩, ⟨?_, ?_, ?_⟩, by decide, by decide⟩
  · rw [hpp, classify_snd]
    show decide (0 < (tsTakeRes cfg st2 p fr.revFlow).1) = false
    rw [htr]
    rfl
  · rw [hpp, classify_tsTbl, htr]
    exact habs
  · rw [hpp, classify_tsTbl, htr]
    show (getTStm (eraseT (tsTblAfterIns cfg st2 p fr.revFlow) (ecrKey p))
      (ecrKey p)).1 = -1000000
    rw [getTStm_absent habs]
  · rw [hpp, classify_snd]
    show (seqStage cfg st2 p fr).2.2 = false
    rw [seqStage_lookup st2 hnl hg, hsr]
    rfl
  · rw [hpp, classify_seqTbl, seqStage_lookup st2 hnl hg, hsr]
    exact habss
  · rw [hpp, classify_seqTbl, seqStage_lookup st2 hnl hg, hsr]
    show (getSeqTm (eraseT (seqTblAfterIns st2 p fr) (ackKey p))
      (ackKey p)).1 = -1000000
    rw [getSeqTm_eq_getTStm, getTStm_absent habss]

/-- Witness for C9 on the concrete zero-time-entry scenario, exercising
both the timestamp and the sequence table. -/
theorem zero_time_entry_no_rtt_witness :
    (pdOf (processPacket cfgDefault stZero pktLocal).2 = false ∧
      findT (processPacket cfgDefault stZero pktLocal).1.tsTbl
        (ecrKey pktLocal) = none ∧
      (getTStm (processPacket cfgDefault stZero pktLocal).1.tsTbl
        (ecrKey pktLocal)).1 = -1000000) ∧
    (sdOf (processPacket cfgDefault stZero pktLocal).2 = false ∧
      findT (processPacket cfgDefault stZero pktLocal).1.seqTbl
        (ackKey pktLocal) = none ∧
      (getSeqTm (processPacket cfgDefault stZero pktLocal).1.seqTbl
        (ackKey pktLocal)).1 = -1000000) ∧
    ¬ ((0:ℤ) < 0) ∧ ¬ ((0:ℤ) < -1000000) :=
  zero_time_entry_no_rtt cfgDefault stZero pktLocal
    (capUpdate { stZero with pktCnt := stZero.pktCnt + 1 } pktLocal)
    { flowname := "10.0.0.1:1111+10.0.0.2:2222", revFlow := true }
    (by decide) (by decide) (by decide) (by decide) (by decide) (by decide)
    (by decide) (by decide)

/-- C10: a duplicate ACK (flag byte exactly ACK, empty payload, repeated
ackno) whose elapsed time since the previous packet of the flow is exactly
zero does not set the dp flag, so if neither RTT sample nor a positive
sequence delta fired on that packet, no observation is emitted. -/
theorem zero_gap_dup_ack_not_flagged (cfg : Cfg) (st : MonState) (p : Pkt)
    (st2 : MonState) (fr : FlowRec)
    (hacq : acquire cfg (capUpdate { st with pktCnt := st.pktCnt + 1 } p) p
      = some (st2, fr))
    (hfl : p.flags = 16) (hpay : p.payLen = 0) (hack : p.ackno = fr.lastAck)
    (htm : fr.lastTm = st2.capTm) :
    isDupAck p fr = true ∧
    dpOf (processPacket cfg st p).2 = false ∧
    (pdOf (processPacket cfg st p).2 = false →
      sdOf (processPacket cfg st p).2 = false →
      dsOf (processPacket cfg st p).2 = false →
      emitOf (processPacket cfg st p).2 = false) := by
  have hpp := processPacket_eq_classify hacq
  have hdup : isDupAck p fr = true := by
    simp [isDupAck, hfl, hpay, hack, ackFlag]
  have hdp : dpOf (processPacket cfg st p).2 = false := by
    rw [hpp, classify_snd]
    show (isDupAck p fr && decide (0 < st2.capTm - fr.lastTm)) = false
    rw [htm]
    simp
  refine ⟨hdup, hdp, ?_⟩
  intro hpd hsd hds
  rw [hpp, classify_snd] at hpd hsd hds hdp ⊢
  show emitDecision cfg (infoOf cfg st2 p fr) = false
  have hpd2 : (infoOf cfg st2 p fr).pd = false := hpd
  have hsd2 : (infoOf cfg st2 p fr).sd = false := hsd
  have hds2 : (infoOf cfg st2 p fr).ds = false := hds
  have hdp2 : (infoOf cfg st2 p fr).dp = false := hdp
  unfold emitDecision
  rw [hpd2, hsd2, hds2, hdp2]
  simp

/-- Witness for C10 on the concrete zero-gap duplicate-ACK scenario. -/
theorem zero_gap_dup_ack_not_flagged_witness :
    isDupAck pktDup
      { flowname := "10.0.0.1:1111+10.0.0.2:2222", lastTm := 5000000,
        lastAck := 777 } = true ∧
    dpOf (processPacket cfgDefault stDup pktDup).2 = false ∧
    emitOf (processPacket cfgDefault stDup pktDup).2 = false := by
  have h := zero_gap_dup_ack_not_flagged cfgDefault stDup pktDup
    (capUpdate { stDup with pktCnt := stDup.pktCnt + 1 } pktDup)
    { flowname := "10.0.0.1:1111+10.0.0.2:2222", lastTm := 5000000,
      lastAck := 777 }
    (by decide) rfl rfl (by decide) (by decide)
  exact ⟨h.1, h.2.1, h.2.2 (by decide) (by decide) (by decide)⟩

end Connmon
